import Mathlib

/-!
Verification of the state-zen runtime transition engine, as a shallow
embedding of `src/core/{runtime,blueprint,transition,state_in_range,
transfer,state_observer,state_aspect,event}.rs` and `src/utils/tool.rs`.

Modelling conventions:

* The Rust runtime `State` is `HashMap<u64, Arc<dyn Any>>`; the engine never
  inspects it (only the caller-supplied closures do), so the embedding
  abstracts the state as a type parameter `S`.  The unused event payload
  `Option<Arc<dyn Any>>` is likewise abstracted as `Option P`.
* Caller-supplied callbacks are side-effecting closures.  Their observable
  behaviour is which callback is invoked, with which state arguments, in
  which order; `transform` therefore returns an explicit invocation log
  (`List (CallEvent S)`) next to the updated machine, and each optional
  callback field is modelled by its presence (a `Bool`).
* `u64` identifiers become `Nat` (the engine only compares them for
  equality); the `i32` priority becomes `Int` (the engine only orders it).
* Rust's `HashMap` is modelled as an association list where `insert`
  prepends and lookup takes the first match, so the most recent insert wins,
  matching `HashMap::insert`'s replace semantics at the lookup level.
* A second, fallible embedding (`...E` definitions, further below) models
  the same functions when a caller-supplied closure fails fatally (a panic
  on a missing or type-mismatched aspect read): each closure returns an
  `Option`, `none` meaning a fatal failure, and the engine functions return
  the machine as mutated up to the failure point together with a success
  flag.
-/

namespace StateZen

/-- StateInRange (src/core/state_in_range.rs): a predicate over states. -/
structure StateInRange (S : Type) where
  predicate : S → Bool

/-- StateInRange::new. -/
def StateInRange.new {S : Type} (f : S → Bool) : StateInRange S :=
  ⟨f⟩

/-- StateInRange::contains. -/
def StateInRange.contains {S : Type} (r : StateInRange S) (s : S) : Bool :=
  r.predicate s

/-- StateInRange::not. -/
def StateInRange.not {S : Type} (r : StateInRange S) : StateInRange S :=
  StateInRange.new fun s => !(r.contains s)

/-- StateInRange::and (the Rust `&&` short-circuits, as does `Bool.and`). -/
def StateInRange.and {S : Type} (r other : StateInRange S) : StateInRange S :=
  StateInRange.new fun s => r.contains s && other.contains s

/-- Transfer (src/core/transfer.rs): a pure state transformation. -/
structure Transfer (S : Type) where
  func : S → S

/-- Transfer::new. -/
def Transfer.new {S : Type} (f : S → S) : Transfer S :=
  ⟨f⟩

/-- Transfer::apply. -/
def Transfer.apply {S : Type} (t : Transfer S) (s : S) : S :=
  t.func s

/-- StateAspect (src/core/state_aspect.rs): id plus an opaque TypeId tag. -/
structure StateAspect where
  id : Nat
  value_type_id : Nat
deriving DecidableEq

/-- EventDef (src/core/event.rs): id plus an opaque payload TypeId tag. -/
structure EventDef where
  id : Nat
  payload_type_id : Nat
deriving DecidableEq

/-- Transition (src/core/transition.rs).  The optional on_tran callback
closure is modelled by its presence; its invocation with (previous, next)
state is recorded in the call log of `transform`. -/
structure Transition (S : Type) where
  id : Nat
  event_id : Nat
  guard : StateInRange S
  transfer : Transfer S
  priority : Int
  on_tran : Bool

/-- StateObserver (src/core/state_observer.rs).  The optional on_enter and
on_exit callback closures are modelled by their presence. -/
structure StateObserver (S : Type) where
  id : Nat
  region : StateInRange S
  on_enter : Bool
  on_exit : Bool

/-- HashMap::insert modelled on an association list: prepend, so lookup
(first match) sees the latest insert, as a map replace does. -/
def hashInsert {V : Type} (k : Nat) (v : V) (m : List (Nat × V)) :
    List (Nat × V) :=
  (k, v) :: m

/-- HashMap::get modelled on an association list: first match wins. -/
def hashFind {V : Type} (m : List (Nat × V)) (k : Nat) : Option V :=
  match m.find? (fun p => p.1 == k) with
  | some p => some p.2
  | none => none

/-- Overlay of two lookup results: the first (most recently inserted)
binding wins. -/
def overlay {V : Type} (o1 o2 : Option V) : Option V :=
  match o1 with
  | some v => some v
  | none => o2

/-- StateMachineBlueprint (src/core/blueprint.rs). -/
structure StateMachineBlueprint (S : Type) where
  aspects : List (Nat × StateAspect)
  events : List (Nat × EventDef)
  transitions : List (Transition S)
  observers : List (StateObserver S)

/-- StateMachineBlueprint::merge: clone self's maps, insert every entry of
other's maps (so other wins on key collision), and append other's
transition and observer lists to self's. -/
def StateMachineBlueprint.merge {S : Type}
    (self other : StateMachineBlueprint S) : StateMachineBlueprint S :=
  { aspects := other.aspects.foldl (fun acc p => hashInsert p.1 p.2 acc) self.aspects
    events := other.events.foldl (fun acc p => hashInsert p.1 p.2 acc) self.events
    transitions := self.transitions ++ other.transitions
    observers := self.observers ++ other.observers }

/-- RuntimeStateMachine (src/core/runtime.rs). -/
structure RuntimeStateMachine (S : Type) where
  blueprint : StateMachineBlueprint S
  current_state : S
  pending_transition : Option (Transition S)

/-- One step of the stable sort by descending priority: insert `t` into an
already sorted list, before the first element whose priority does not
exceed `t`'s.  Since the elements already in the list came earlier in the
original list, equal priorities keep declaration order. -/
def insertByPriorityDesc {α : Type} (priority : α → Int) (t : α) :
    List α → List α
  | [] => [t]
  | u :: us =>
    if priority u ≤ priority t then t :: u :: us
    else u :: insertByPriorityDesc priority t us

/-- Model of `candidates.sort_by(|a, b| b.priority.cmp(&a.priority))`
(runtime.rs line 44).  Rust's `sort_by` is a stable sort; it is embedded as
a stable insertion sort: same descending order, same tie behaviour
(earliest declared first among equal priorities). -/
def sortByPriorityDesc {α : Type} (priority : α → Int) :
    List α → List α
  | [] => []
  | t :: ts => insertByPriorityDesc priority t (sortByPriorityDesc priority ts)

/-- The candidate filter of `event_happen` (runtime.rs lines 36-41): the
blueprint's transitions whose event id matches and whose guard holds on the
current state, in declaration order. -/
def candidatesOf {S : Type} (m : RuntimeStateMachine S) (event_id : Nat) :
    List (Transition S) :=
  m.blueprint.transitions.filter
    (fun t => t.event_id == event_id && t.guard.contains m.current_state)

/-- RuntimeStateMachine::event_happen (runtime.rs lines 35-47): filter the
blueprint's transitions by event id and guard, stable-sort by descending
priority, and store the first candidate (if any) in the pending slot.  The
payload is accepted and ignored. -/
def RuntimeStateMachine.event_happen {S P : Type} (m : RuntimeStateMachine S)
    (event_id : Nat) (_payload : Option P) : RuntimeStateMachine S :=
  { m with
      pending_transition :=
        (sortByPriorityDesc Transition.priority (candidatesOf m event_id)).head? }

/-- One recorded callback invocation: which callback, with which state
arguments.  This is the observable effect of the Rust closures. -/
inductive CallEvent (S : Type) where
  | onExit (observer_id : Nat) (state : S)
  | onTran (transition_id : Nat) (previous next : S)
  | onEnter (observer_id : Nat) (state : S)
deriving DecidableEq

/-- The observer loop of `transform` (runtime.rs lines 56-73): one pass over
the observers in declaration order, evaluating the region on the
pre-transition and post-transition states, and collecting the observers
whose exit (respectively enter) callback must run, each only when the
callback is present. -/
def collectObserverCallbacks {S : Type} :
    List (StateObserver S) → S → S →
      List (StateObserver S) × List (StateObserver S)
  | [], _, _ => ([], [])
  | o :: rest, cur, next =>
    let was_in := o.region.contains cur
    let now_in := o.region.contains next
    let tail := collectObserverCallbacks rest cur next
    (if was_in && !now_in && o.on_exit then o :: tail.1 else tail.1,
     if !was_in && now_in && o.on_enter then o :: tail.2 else tail.2)

/-- RuntimeStateMachine::transform (runtime.rs lines 51-90): take the
pending transition (clearing the slot), compute the next state, collect the
exit and enter callbacks, run all exits (with the pre-transition state),
then the transition's own callback (with previous and next), then all
enters (with the post-transition state), and finally commit the next state.
The returned log lists the callback invocations in execution order. -/
def RuntimeStateMachine.transform {S : Type} (m : RuntimeStateMachine S) :
    RuntimeStateMachine S × List (CallEvent S) :=
  match m.pending_transition with
  | none => (m, [])
  | some transition =>
    let next_state := transition.transfer.apply m.current_state
    let pairs :=
      collectObserverCallbacks m.blueprint.observers m.current_state next_state
    let log :=
      pairs.1.map (fun o => CallEvent.onExit o.id m.current_state)
        ++ (if transition.on_tran then
              [CallEvent.onTran transition.id m.current_state next_state]
            else [])
        ++ pairs.2.map (fun o => CallEvent.onEnter o.id next_state)
    ({ m with current_state := next_state, pending_transition := none }, log)

/-- partition_range_by_transfer_target (src/utils/tool.rs lines 24-34). -/
def partition_range_by_transfer_target {S : Type}
    (a b : StateInRange S) (f : Transfer S) :
    StateInRange S × StateInRange S :=
  let c := StateInRange.new fun s => b.contains (f.apply s)
  (a.and c, a.and c.not)

/-- Fallible variant of Transition: each caller-supplied closure returns an
`Option`, `none` modelling a fatal failure (a panic on a missing or
type-mismatched aspect read) at that invocation. -/
structure TransitionE (S : Type) where
  id : Nat
  event_id : Nat
  guard : S → Option Bool
  transfer : S → Option S
  priority : Int
  on_tran : Option (S → S → Option Unit)

/-- Fallible variant of StateObserver. -/
structure StateObserverE (S : Type) where
  id : Nat
  region : S → Option Bool
  on_enter : Option (S → Option Unit)
  on_exit : Option (S → Option Unit)

/-- Fallible variant of StateMachineBlueprint. -/
structure StateMachineBlueprintE (S : Type) where
  aspects : List (Nat × StateAspect)
  events : List (Nat × EventDef)
  transitions : List (TransitionE S)
  observers : List (StateObserverE S)

/-- Fallible variant of RuntimeStateMachine. -/
structure RuntimeStateMachineE (S : Type) where
  blueprint : StateMachineBlueprintE S
  current_state : S
  pending_transition : Option (TransitionE S)

/-- The candidate filter of `event_happen` with fallible guards: transitions
are scanned in declaration order; the guard is evaluated only when the
event id matches (Rust's `&&` short-circuits); a guard failure aborts the
whole filter before any field of the machine is mutated. -/
def filterCandidatesE {S : Type} :
    List (TransitionE S) → Nat → S → Option (List (TransitionE S))
  | [], _, _ => some []
  | t :: ts, event_id, s =>
    if t.event_id == event_id then
      match t.guard s with
      | none => none
      | some g =>
        match filterCandidatesE ts event_id s with
        | none => none
        | some rest => some (if g then t :: rest else rest)
    else filterCandidatesE ts event_id s

/-- RuntimeStateMachine::event_happen with fallible guards.  On a guard
failure the machine is returned unchanged with a `false` flag: the pending
slot is assigned only after every guard read has succeeded (runtime.rs
line 46 runs after the filter of lines 36-41 has completed). -/
def RuntimeStateMachineE.event_happenE {S P : Type}
    (m : RuntimeStateMachineE S) (event_id : Nat) (_payload : Option P) :
    RuntimeStateMachineE S × Bool :=
  match filterCandidatesE m.blueprint.transitions event_id m.current_state with
  | none => (m, false)
  | some candidates =>
    ({ m with
        pending_transition :=
          (sortByPriorityDesc TransitionE.priority candidates).head? },
     true)

/-- The observer loop of `transform` with fallible region reads: a region
failure aborts the loop; otherwise the present exit and enter callbacks are
collected in declaration order. -/
def collectObserverCallbacksE {S : Type} :
    List (StateObserverE S) → S → S →
      Option (List (S → Option Unit) × List (S → Option Unit))
  | [], _, _ => some ([], [])
  | o :: rest, cur, next =>
    match o.region cur with
    | none => none
    | some was_in =>
      match o.region next with
      | none => none
      | some now_in =>
        match collectObserverCallbacksE rest cur next with
        | none => none
        | some tail =>
          some
            (if was_in && !now_in then
              match o.on_exit with
              | some f => f :: tail.1
              | none => tail.1
             else tail.1,
             if !was_in && now_in then
              match o.on_enter with
              | some f => f :: tail.2
              | none => tail.2
             else tail.2)

/-- Run a list of fallible callbacks on a state; `false` when one fails. -/
def runCallbacksE {S : Type} : List (S → Option Unit) → S → Bool
  | [], _ => true
  | f :: fs, s =>
    match f s with
    | none => false
    | some _ => runCallbacksE fs s

/-- RuntimeStateMachine::transform with fallible closures.  Mirrors the Rust
control flow: `self.pending_transition.take()` clears the pending slot
FIRST (runtime.rs line 52); only then are the transfer, the region reads
and the callbacks executed, and `current_state` is committed last (line
88).  A failure anywhere therefore leaves `current_state` untouched but the
pending slot already cleared. -/
def RuntimeStateMachineE.transformE {S : Type} (m : RuntimeStateMachineE S) :
    RuntimeStateMachineE S × Bool :=
  match m.pending_transition with
  | none => (m, true)
  | some transition =>
    match transition.transfer m.current_state with
    | none => ({ m with pending_transition := none }, false)
    | some next_state =>
      match collectObserverCallbacksE m.blueprint.observers m.current_state
          next_state with
      | none => ({ m with pending_transition := none }, false)
      | some pairs =>
        if runCallbacksE pairs.1 m.current_state &&
            (match transition.on_tran with
             | none => true
             | some f => (f m.current_state next_state).isSome) &&
            runCallbacksE pairs.2 next_state then
          ({ m with pending_transition := none, current_state := next_state },
           true)
        else ({ m with pending_transition := none }, false)

/-- Recognizes an on-enter invocation of the observer with the given id. -/
def isOnEnterFor {S : Type} (observer_id : Nat) : CallEvent S → Bool
  | .onEnter i _ => i == observer_id
  | _ => false

/-- Recognizes an on-exit invocation of the observer with the given id. -/
def isOnExitFor {S : Type} (observer_id : Nat) : CallEvent S → Bool
  | .onExit i _ => i == observer_id
  | _ => false

/-! Concrete instances (over `S := Nat`) used by the witness theorems. -/

/-- A guard that is satisfied by every state. -/
def exGuardTrue : StateInRange Nat := StateInRange.new fun _ => true

/-- Low-priority transition for event 7. -/
def exTranLow : Transition Nat :=
  { id := 1, event_id := 7, guard := exGuardTrue,
    transfer := Transfer.new fun s => s + 1, priority := 1, on_tran := false }

/-- First-declared of two priority-5 transitions for event 7. -/
def exTranA : Transition Nat :=
  { id := 2, event_id := 7, guard := exGuardTrue,
    transfer := Transfer.new fun s => s + 2, priority := 5, on_tran := false }

/-- Second-declared priority-5 transition for event 7. -/
def exTranB : Transition Nat :=
  { id := 3, event_id := 7, guard := exGuardTrue,
    transfer := Transfer.new fun s => s + 3, priority := 5, on_tran := false }

/-- A transition for a different event, with the highest priority of all. -/
def exTranOther : Transition Nat :=
  { id := 4, event_id := 9, guard := exGuardTrue,
    transfer := Transfer.new fun s => s, priority := 50, on_tran := false }

/-- Machine with three candidates for event 7 and one for event 9. -/
def exMachineC1 : RuntimeStateMachine Nat :=
  { blueprint :=
      { aspects := [], events := [],
        transitions := [exTranLow, exTranA, exTranB, exTranOther],
        observers := [] },
    current_state := 0, pending_transition := none }

/-- Observer whose region (state 0) is being left by the example move. -/
def exObserverOut : StateObserver Nat :=
  { id := 1, region := StateInRange.new fun s => s == 0,
    on_enter := true, on_exit := true }

/-- Observer whose region (state 1) is being entered by the example move. -/
def exObserverIn : StateObserver Nat :=
  { id := 2, region := StateInRange.new fun s => s == 1,
    on_enter := true, on_exit := true }

/-- Transition moving state 0 to state 1, with an on-transition callback. -/
def exTranMove : Transition Nat :=
  { id := 10, event_id := 100, guard := exGuardTrue,
    transfer := Transfer.new fun _ => 1, priority := 0, on_tran := true }

/-- Machine at state 0 with `exTranMove` pending and both observers. -/
def exMachinePending : RuntimeStateMachine Nat :=
  { blueprint :=
      { aspects := [], events := [], transitions := [exTranMove],
        observers := [exObserverOut, exObserverIn] },
    current_state := 0,
    pending_transition := some exTranMove }

/-- Aspect declarations for the merge witness. -/
def exAspectA1 : StateAspect := { id := 1, value_type_id := 11 }

/-- Second aspect of blueprint A; its key collides with blueprint B's. -/
def exAspectA2 : StateAspect := { id := 2, value_type_id := 12 }

/-- Blueprint B's colliding aspect (should win the merge at key 2). -/
def exAspectB2 : StateAspect := { id := 2, value_type_id := 99 }

/-- Aspect only declared by blueprint B. -/
def exAspectB3 : StateAspect := { id := 3, value_type_id := 13 }

/-- Event declared by blueprint A. -/
def exEventA : EventDef := { id := 7, payload_type_id := 70 }

/-- Event declared by blueprint B. -/
def exEventB : EventDef := { id := 8, payload_type_id := 80 }

/-- Left operand of the merge witness. -/
def exBlueA : StateMachineBlueprint Nat :=
  { aspects := [(1, exAspectA1), (2, exAspectA2)], events := [(7, exEventA)],
    transitions := [exTranLow], observers := [exObserverOut] }

/-- Right operand of the merge witness (collides with A on aspect key 2). -/
def exBlueB : StateMachineBlueprint Nat :=
  { aspects := [(2, exAspectB2), (3, exAspectB3)], events := [(8, exEventB)],
    transitions := [exTranA], observers := [exObserverIn] }

/-- Predicate over `Nat` holding everywhere (for the partition witness). -/
def exRangeAll : StateInRange Nat := StateInRange.new fun _ => true

/-- Predicate over `Nat` holding exactly at state 1. -/
def exRangeOne : StateInRange Nat := StateInRange.new fun s => s == 1

/-- Transfer adding one (for the partition witness). -/
def exShift : Transfer Nat := Transfer.new fun s => s + 1

/-- Fallible transition whose guard succeeds but whose transfer and
callback fail on every input. -/
def exTranE : TransitionE Nat :=
  { id := 1, event_id := 5, guard := fun _ => some true,
    transfer := fun _ => none, priority := 0,
    on_tran := some fun _ _ => none }

/-- Fallible observer whose region read and callbacks fail everywhere. -/
def exObserverE : StateObserverE Nat :=
  { id := 1, region := fun _ => none,
    on_enter := some fun _ => none, on_exit := some fun _ => none }

/-- Fallible machine: guards are total, everything else fails, so a
resolve step must succeed exactly when it invokes no transfer and no
callback. -/
def exMachineE : RuntimeStateMachineE Nat :=
  { blueprint :=
      { aspects := [], events := [], transitions := [exTranE],
        observers := [exObserverE] },
    current_state := 0, pending_transition := none }

/-- Fallible transition whose guard itself fails on every input. -/
def exTranEGuardFail : TransitionE Nat :=
  { id := 2, event_id := 6, guard := fun _ => none,
    transfer := fun s => some s, priority := 0, on_tran := none }

/-- Fallible machine with a failing guard for event 6 and a pending
transition whose transfer fails: both protocol steps abort on it. -/
def exMachineEFail : RuntimeStateMachineE Nat :=
  { blueprint :=
      { aspects := [], events := [],
        transitions := [exTranEGuardFail], observers := [] },
    current_state := 0, pending_transition := some exTranE }

/-! Theorems. -/

/-- The head of a stable insertion is the inserted element when the former
head's priority does not exceed it, and the former head otherwise. -/
theorem insertByPriorityDesc_head {α : Type} (priority : α → Int) (t u : α)
    (us : List α) :
    (insertByPriorityDesc priority t (u :: us)).head? =
      some (if priority u ≤ priority t then t else u) := by
  by_cases h : priority u ≤ priority t <;>
    simp [insertByPriorityDesc, h]

/-- The head of the stable descending sort of a nonempty list is an element
of maximal priority, preceded in the original list only by elements of
strictly smaller priority. -/
theorem sortByPriorityDesc_head_spec {α : Type} (priority : α → Int) :
    ∀ l : List α, l ≠ [] →
      ∃ w l1 l2, (sortByPriorityDesc priority l).head? = some w ∧
        l = l1 ++ w :: l2 ∧ (∀ t ∈ l1, priority t < priority w) ∧
        ∀ t ∈ l, priority t ≤ priority w
  | [], h => absurd rfl h
  | [t], _ => ⟨t, [], [], rfl, rfl, by simp, by simp⟩
  | t :: u :: us, _ => by
    obtain ⟨w, l1, l2, hw, hsplit, hstrict, hmax⟩ :=
      sortByPriorityDesc_head_spec priority (u :: us) (by simp)
    obtain ⟨rest, hrest⟩ :
        ∃ rest, sortByPriorityDesc priority (u :: us) = w :: rest := by
      cases hs : sortByPriorityDesc priority (u :: us) with
      | nil => rw [hs] at hw; cases hw
      | cons x xs =>
        rw [hs] at hw
        exact ⟨xs, by rw [List.head?_cons] at hw; rw [Option.some_inj.mp hw]⟩
    by_cases hp : priority w ≤ priority t
    · refine ⟨t, [], u :: us, ?_, rfl, by simp, ?_⟩
      · show (insertByPriorityDesc priority t
          (sortByPriorityDesc priority (u :: us))).head? = some t
        rw [hrest, insertByPriorityDesc_head, if_pos hp]
      · intro x hx
        rcases List.mem_cons.mp hx with h1 | h2
        · subst h1; exact le_refl _
        · exact le_trans (hmax x h2) hp
    · push_neg at hp
      refine ⟨w, t :: l1, l2, ?_, by rw [hsplit]; rfl, ?_, ?_⟩
      · show (insertByPriorityDesc priority t
          (sortByPriorityDesc priority (u :: us))).head? = some w
        rw [hrest, insertByPriorityDesc_head, if_neg (not_le.mpr hp)]
      · intro x hx
        rcases List.mem_cons.mp hx with h1 | h2
        · subst h1; exact hp
        · exact hstrict x h2
      · intro x hx
        rcases List.mem_cons.mp hx with h1 | h2
        · subst h1; exact le_of_lt hp
        · exact hmax x h2

/-- C1: after `event_happen(E, p)` the pending slot holds exactly the
candidate (matching event id, satisfied guard) of strictly highest
priority, the earliest-declared among equal maxima; it is empty exactly
when there is no candidate; the previously pending transition is discarded
(the outcome does not depend on the prior pending slot); and the selection
is a pure function of the blueprint order, hence deterministic. -/
theorem event_happen_selects_winner {S P : Type} (m : RuntimeStateMachine S)
    (event_id : Nat) (payload : Option P) :
    (candidatesOf m event_id = [] →
      (m.event_happen event_id payload).pending_transition = none) ∧
    (candidatesOf m event_id ≠ [] →
      ∃ w, (m.event_happen event_id payload).pending_transition = some w) ∧
    (∀ w, (m.event_happen event_id payload).pending_transition = some w →
      w ∈ candidatesOf m event_id ∧
      (∀ t ∈ candidatesOf m event_id, t.priority ≤ w.priority) ∧
      ∃ l1 l2, candidatesOf m event_id = l1 ++ w :: l2 ∧
        ∀ t ∈ l1, t.priority < w.priority) ∧
    (∀ q : Option (Transition S),
      ((RuntimeStateMachine.mk m.blueprint m.current_state q).event_happen
          event_id payload).pending_transition =
        (m.event_happen event_id payload).pending_transition) := by
  refine ⟨?_, ?_, ?_, fun q => rfl⟩
  · intro h
    show (sortByPriorityDesc Transition.priority
      (candidatesOf m event_id)).head? = none
    rw [h]; rfl
  · intro h
    obtain ⟨w, _, _, hw, _, _, _⟩ :=
      sortByPriorityDesc_head_spec Transition.priority
        (candidatesOf m event_id) h
    exact ⟨w, hw⟩
  · intro w hw
    have hw2 : (sortByPriorityDesc Transition.priority
        (candidatesOf m event_id)).head? = some w := hw
    have hne : candidatesOf m event_id ≠ [] := by
      intro h
      rw [h] at hw2; cases hw2
    obtain ⟨w', l1, l2, hw', hsplit, hstrict, hmax⟩ :=
      sortByPriorityDesc_head_spec Transition.priority
        (candidatesOf m event_id) hne
    have hww : w' = w := by
      have : some w' = some w := hw'.symm.trans hw2
      exact Option.some_inj.mp this
    subst hww
    refine ⟨?_, hmax, l1, l2, hsplit, hstrict⟩
    rw [hsplit]
    exact List.mem_append_right l1 (List.mem_cons_self w' l2)

/-- Witness for C1 on a concrete machine: among the candidates for event 7
(priorities 1, 5, 5), the earliest-declared priority-5 transition wins;
the priority-50 transition for event 9 is not a candidate. -/
theorem event_happen_selects_winner_witness :
    candidatesOf exMachineC1 7 ≠ [] ∧
    (∃ w, (exMachineC1.event_happen 7 (none : Option Unit)).pending_transition
      = some w) ∧
    (exMachineC1.event_happen 7 (none : Option Unit)).pending_transition =
      some exTranA := by
  have hne : candidatesOf exMachineC1 7 = [exTranLow, exTranA, exTranB] := rfl
  refine ⟨by rw [hne]; simp, ?_, rfl⟩
  exact (event_happen_selects_winner exMachineC1 7 (none : Option Unit)).2.1
    (by rw [hne]; simp)

/-- C9: the payload has no observable effect: `event_happen` returns the
same machine for any two payloads, even of different types (the Rust
`_payload` is never read). -/
theorem event_happen_payload_irrelevant {S P1 P2 : Type}
    (m : RuntimeStateMachine S) (event_id : Nat)
    (p1 : Option P1) (p2 : Option P2) :
    m.event_happen event_id p1 = m.event_happen event_id p2 := rfl

/-- C6: when no transition for the event has a satisfied guard, the resolve
step leaves the pending slot empty and the machine otherwise unchanged, and
the subsequent `transform` is a no-op that fires no callback. -/
theorem event_happen_no_candidate_noop {S P : Type}
    (m : RuntimeStateMachine S) (event_id : Nat) (payload : Option P)
    (h : ∀ t ∈ m.blueprint.transitions, t.event_id = event_id →
      t.guard.contains m.current_state = false) :
    (m.event_happen event_id payload).pending_transition = none ∧
    (m.event_happen event_id payload).current_state = m.current_state ∧
    (m.event_happen event_id payload).blueprint = m.blueprint ∧
    (m.event_happen event_id payload).transform =
      (m.event_happen event_id payload, []) := by
  have hc : candidatesOf m event_id = [] := by
    apply List.filter_eq_nil_iff.mpr
    intro t ht hb
    rcases Bool.and_eq_true_iff.mp hb with ⟨hev, hg⟩
    have : t.event_id = event_id := by simpa using hev
    rw [h t ht this] at hg
    cases hg
  have hpend : (m.event_happen event_id payload).pending_transition = none := by
    show (sortByPriorityDesc Transition.priority
      (candidatesOf m event_id)).head? = none
    rw [hc]; rfl
  refine ⟨hpend, rfl, rfl, ?_⟩
  show RuntimeStateMachine.transform _ = _
  rw [RuntimeStateMachine.transform, hpend]

/-- Witness for C6: no transition of the example machine is declared for
event 99, so resolving it pends nothing and applying it changes nothing. -/
theorem event_happen_no_candidate_noop_witness :
    (∀ t ∈ exMachineC1.blueprint.transitions, t.event_id = 99 →
      t.guard.contains exMachineC1.current_state = false) ∧
    (exMachineC1.event_happen 99 (none : Option Unit)).pending_transition
      = none ∧
    (exMachineC1.event_happen 99 (none : Option Unit)).current_state =
      exMachineC1.current_state :=
  ⟨by decide,
   (event_happen_no_candidate_noop exMachineC1 99 (none : Option Unit)
      (by decide)).1,
   (event_happen_no_candidate_noop exMachineC1 99 (none : Option Unit)
      (by decide)).2.1⟩

/-- The single observer pass of `transform` collects exactly the observers
whose region was left (with a present exit callback) and those whose region
was entered (with a present enter callback), each in declaration order. -/
theorem collectObserverCallbacks_eq_filter {S : Type}
    (obs : List (StateObserver S)) (cur next : S) :
    collectObserverCallbacks obs cur next =
      (obs.filter (fun o =>
         o.region.contains cur && !(o.region.contains next) && o.on_exit),
       obs.filter (fun o =>
         !(o.region.contains cur) && o.region.contains next && o.on_enter)) := by
  induction obs with
  | nil => rfl
  | cons o rest ih =>
    cases hw : o.region.contains cur <;> cases hn : o.region.contains next <;>
      cases he : o.on_enter <;> cases hx : o.on_exit <;>
        simp [collectObserverCallbacks, ih, List.filter_cons, hw, hn, he, hx]

/-- C2: for a pending transition, the invocation log of `transform` is
exactly: the exit callbacks of the left observers in declaration order,
each with the pre-transition state; then the transition's own callback, if
present, with the previous and next states (it fires regardless of the
observers); then the enter callbacks of the entered observers in
declaration order, each with the post-transition state. -/
theorem transform_runs_callbacks_in_order {S : Type}
    (m : RuntimeStateMachine S) (transition : Transition S)
    (hp : m.pending_transition = some transition) :
    (m.transform).2 =
      (m.blueprint.observers.filter (fun o =>
          o.region.contains m.current_state &&
          !(o.region.contains (transition.transfer.apply m.current_state)) &&
          o.on_exit)).map
        (fun o => CallEvent.onExit o.id m.current_state)
      ++ (if transition.on_tran then
            [CallEvent.onTran transition.id m.current_state
              (transition.transfer.apply m.current_state)]
          else [])
      ++ (m.blueprint.observers.filter (fun o =>
          !(o.region.contains m.current_state) &&
          o.region.contains (transition.transfer.apply m.current_state) &&
          o.on_enter)).map
        (fun o => CallEvent.onEnter o.id
          (transition.transfer.apply m.current_state)) ∧
    (transition.on_tran = true →
      CallEvent.onTran transition.id m.current_state
        (transition.transfer.apply m.current_state) ∈ (m.transform).2) := by
  have hlog : (m.transform).2 =
      ((collectObserverCallbacks m.blueprint.observers m.current_state
          (transition.transfer.apply m.current_state)).1.map
        (fun o => CallEvent.onExit o.id m.current_state))
      ++ (if transition.on_tran then
            [CallEvent.onTran transition.id m.current_state
              (transition.transfer.apply m.current_state)]
          else [])
      ++ ((collectObserverCallbacks m.blueprint.observers m.current_state
          (transition.transfer.apply m.current_state)).2.map
        (fun o => CallEvent.onEnter o.id
          (transition.transfer.apply m.current_state))) := by
    rw [RuntimeStateMachine.transform, hp]
  rw [hlog, collectObserverCallbacks_eq_filter]
  refine ⟨rfl, ?_⟩
  intro htr
  simp [htr]

/-- Witness for C2: on the concrete machine the log is exactly
O1.on_exit(0), transition.on_tran(0, 1), O2.on_enter(1). -/
theorem transform_runs_callbacks_in_order_witness :
    exMachinePending.pending_transition = some exTranMove ∧
    CallEvent.onTran 10 0 1 ∈ (exMachinePending.transform).2 ∧
    (exMachinePending.transform).2 =
      [CallEvent.onExit 1 0, CallEvent.onTran 10 0 1, CallEvent.onEnter 2 1] :=
  ⟨rfl,
   (transform_runs_callbacks_in_order exMachinePending exTranMove rfl).2 rfl,
   by decide⟩

/-- In a filtered list whose underlying observer ids are pairwise distinct,
the entries sharing observer `o`'s id number one exactly when `o` passes
the filter. -/
theorem countP_id_in_filter {S : Type} (q : StateObserver S → Bool) :
    ∀ (l : List (StateObserver S)) (o : StateObserver S), o ∈ l →
      (l.map StateObserver.id).Nodup →
      (l.filter q).countP (fun x => x.id == o.id) = if q o then 1 else 0 := by
  intro l
  induction l with
  | nil => intro o ho; cases ho
  | cons x xs ih =>
    intro o ho hnd
    rw [List.map_cons, List.nodup_cons] at hnd
    obtain ⟨hnot, hnd⟩ := hnd
    have hxs_zero : ∀ y ∈ xs, y.id ≠ x.id := by
      intro y hy hxy
      exact hnot (hxy ▸ List.mem_map_of_mem StateObserver.id hy)
    rcases List.mem_cons.mp ho with h1 | h2
    · subst h1
      have hz : (xs.filter q).countP (fun y => y.id == o.id) = 0 := by
        apply List.countP_eq_zero.mpr
        intro y hy hb
        exact hxs_zero y (List.mem_of_mem_filter hy) (by simpa using hb)
      rw [List.filter_cons]
      by_cases hq : q o = true
      · rw [if_pos hq, List.countP_cons, hz]
        simp [hq]
      · rw [if_neg hq, hz]
        simp [hq]
    · have hxo : x.id ≠ o.id := by
        intro hk
        exact hnot (by
          rw [hk]
          exact List.mem_map_of_mem StateObserver.id h2)
      rw [List.filter_cons]
      by_cases hq : q x = true
      · rw [if_pos hq, List.countP_cons, ih o h2 hnd]
        simp [hxo]
      · rw [if_neg hq, ih o h2 hnd]

/-- Mapped exit entries contain no enter entry. -/
theorem countP_onExit_map_enter {S : Type} (oid : Nat)
    (l : List (StateObserver S)) (cur : S) :
    (l.map fun o => CallEvent.onExit o.id cur).countP (isOnEnterFor oid)
      = 0 := by
  rw [List.countP_map]
  apply List.countP_eq_zero.mpr
  intro a _ h
  simp [Function.comp, isOnEnterFor] at h

/-- Mapped enter entries contain no exit entry. -/
theorem countP_onEnter_map_exit {S : Type} (oid : Nat)
    (l : List (StateObserver S)) (nxt : S) :
    (l.map fun o => CallEvent.onEnter o.id nxt).countP (isOnExitFor oid)
      = 0 := by
  rw [List.countP_map]
  apply List.countP_eq_zero.mpr
  intro a _ h
  simp [Function.comp, isOnExitFor] at h

/-- Counting enter entries for an id across a mapped observer list reduces
to counting the observers carrying that id. -/
theorem countP_onEnter_map {S : Type} (oid : Nat)
    (l : List (StateObserver S)) (nxt : S) :
    (l.map fun o => CallEvent.onEnter o.id nxt).countP (isOnEnterFor oid)
      = l.countP (fun o => o.id == oid) := by
  rw [List.countP_map]; rfl

/-- Counting exit entries for an id across a mapped observer list reduces
to counting the observers carrying that id. -/
theorem countP_onExit_map {S : Type} (oid : Nat)
    (l : List (StateObserver S)) (cur : S) :
    (l.map fun o => CallEvent.onExit o.id cur).countP (isOnExitFor oid)
      = l.countP (fun o => o.id == oid) := by
  rw [List.countP_map]; rfl

/-- C3: per committed transition, an observer's enter callback is invoked
exactly once when its region holds on the post-transition state but not on
the pre-transition one (and the callback is present), and never when the
region's truth value is unchanged; symmetrically for exit; the region is
evaluated exactly on the pre-transition and post-transition states. -/
theorem observer_enter_exit_exactly_once {S : Type}
    (m : RuntimeStateMachine S) (transition : Transition S)
    (o : StateObserver S)
    (hp : m.pending_transition = some transition)
    (ho : o ∈ m.blueprint.observers)
    (hid : (m.blueprint.observers.map StateObserver.id).Nodup) :
    ((m.transform).2.countP (isOnEnterFor o.id) =
      if !(o.region.contains m.current_state) &&
         o.region.contains (transition.transfer.apply m.current_state) &&
         o.on_enter then 1 else 0) ∧
    ((m.transform).2.countP (isOnExitFor o.id) =
      if o.region.contains m.current_state &&
         !(o.region.contains (transition.transfer.apply m.current_state)) &&
         o.on_exit then 1 else 0) := by
  rw [(transform_runs_callbacks_in_order m transition hp).1]
  have htmid_enter :
      (if transition.on_tran then
        [CallEvent.onTran transition.id m.current_state
          (transition.transfer.apply m.current_state)]
       else []).countP (isOnEnterFor o.id) = 0 := by
    cases transition.on_tran <;>
      simp [List.countP_cons, isOnEnterFor]
  have htmid_exit :
      (if transition.on_tran then
        [CallEvent.onTran transition.id m.current_state
          (transition.transfer.apply m.current_state)]
       else []).countP (isOnExitFor o.id) = 0 := by
    cases transition.on_tran <;>
      simp [List.countP_cons, isOnExitFor]
  constructor
  · rw [List.countP_append, List.countP_append, htmid_enter,
      countP_onExit_map_enter, countP_onEnter_map,
      countP_id_in_filter _ m.blueprint.observers o ho hid]
    simp
  · rw [List.countP_append, List.countP_append, htmid_exit,
      countP_onEnter_map_exit, countP_onExit_map,
      countP_id_in_filter _ m.blueprint.observers o ho hid]
    simp

/-- Witness for C3: on the concrete machine the entering observer's enter
callback fires exactly once and its exit callback never fires. -/
theorem observer_enter_exit_exactly_once_witness :
    exMachinePending.pending_transition = some exTranMove ∧
    exObserverIn ∈ exMachinePending.blueprint.observers ∧
    (exMachinePending.blueprint.observers.map StateObserver.id).Nodup ∧
    (exMachinePending.transform).2.countP (isOnEnterFor 2) = 1 ∧
    (exMachinePending.transform).2.countP (isOnExitFor 2) = 0 := by
  have h := observer_enter_exit_exactly_once exMachinePending exTranMove
    exObserverIn rfl (by simp [exMachinePending]) (by decide)
  exact ⟨rfl, by simp [exMachinePending], by decide,
    h.1.trans (by decide), h.2.trans (by decide)⟩

/-- C4: applying a pending transition commits exactly
`transfer.apply(current_state)` and empties the pending slot; the commit
happens only after all callbacks: every logged invocation received the
pre-transition state (exits, and the first argument of the transition
callback) or the computed next state (enters, and the second argument of
the transition callback), never a partially committed one. -/
theorem transform_commits_next_state {S : Type}
    (m : RuntimeStateMachine S) (transition : Transition S)
    (hp : m.pending_transition = some transition) :
    (m.transform).1.current_state =
      transition.transfer.apply m.current_state ∧
    (m.transform).1.pending_transition = none ∧
    (m.transform).1.blueprint = m.blueprint ∧
    (∀ i s, CallEvent.onExit i s ∈ (m.transform).2 →
      s = m.current_state) ∧
    (∀ i s s', CallEvent.onTran i s s' ∈ (m.transform).2 →
      s = m.current_state ∧
      s' = transition.transfer.apply m.current_state) ∧
    (∀ i s, CallEvent.onEnter i s ∈ (m.transform).2 →
      s = transition.transfer.apply m.current_state) := by
  have hres : (m.transform).1 =
      { m with
          current_state := transition.transfer.apply m.current_state,
          pending_transition := none } := by
    rw [RuntimeStateMachine.transform, hp]
  have hlog := (transform_runs_callbacks_in_order m transition hp).1
  refine ⟨by rw [hres], by rw [hres], by rw [hres], ?_, ?_, ?_⟩
  · intro i s hs
    rw [hlog] at hs
    rcases List.mem_append.mp hs with hs | hs
    · rcases List.mem_append.mp hs with hs | hs
      · obtain ⟨a, _, ha⟩ := List.mem_map.mp hs
        exact (CallEvent.onExit.injEq _ _ _ _).mp ha.symm |>.2
      · cases htr : transition.on_tran <;> rw [htr] at hs <;> simp at hs
    · obtain ⟨a, _, ha⟩ := List.mem_map.mp hs
      cases ha
  · intro i s s' hs
    rw [hlog] at hs
    rcases List.mem_append.mp hs with hs | hs
    · rcases List.mem_append.mp hs with hs | hs
      · obtain ⟨a, _, ha⟩ := List.mem_map.mp hs
        cases ha
      · cases htr : transition.on_tran <;> rw [htr] at hs <;> simp at hs
        exact ⟨hs.2.1, hs.2.2⟩
    · obtain ⟨a, _, ha⟩ := List.mem_map.mp hs
      cases ha
  · intro i s hs
    rw [hlog] at hs
    rcases List.mem_append.mp hs with hs | hs
    · rcases List.mem_append.mp hs with hs | hs
      · obtain ⟨a, _, ha⟩ := List.mem_map.mp hs
        cases ha
      · cases htr : transition.on_tran <;> rw [htr] at hs <;> simp at hs
    · obtain ⟨a, _, ha⟩ := List.mem_map.mp hs
      exact (CallEvent.onEnter.injEq _ _ _ _).mp ha.symm |>.2

/-- Witness for C4 on the concrete machine: the new state is 1, the pending
slot is cleared, and the exit entry carries the pre-transition state 0. -/
theorem transform_commits_next_state_witness :
    exMachinePending.pending_transition = some exTranMove ∧
    (exMachinePending.transform).1.current_state = 1 ∧
    (exMachinePending.transform).1.pending_transition = none ∧
    (∀ i s, CallEvent.onExit i s ∈ (exMachinePending.transform).2 →
      s = exMachinePending.current_state) := by
  have h := transform_commits_next_state exMachinePending exTranMove rfl
  exact ⟨rfl, h.1, h.2.1, h.2.2.2.1⟩

/-- Folding `hashInsert` over a list of entries prepends them in reverse. -/
theorem foldl_hashInsert {V : Type} (es : List (Nat × V)) :
    ∀ m0 : List (Nat × V),
      es.foldl (fun acc p => hashInsert p.1 p.2 acc) m0 = es.reverse ++ m0 := by
  induction es with
  | nil => intro m0; rfl
  | cons p ps ih =>
    intro m0
    rw [List.foldl_cons, List.reverse_cons, ih]
    simp [hashInsert]

/-- Lookup over concatenated association lists: the left list wins. -/
theorem hashFind_append {V : Type} (m1 m2 : List (Nat × V)) (k : Nat) :
    hashFind (m1 ++ m2) k = overlay (hashFind m1 k) (hashFind m2 k) := by
  simp only [hashFind, List.find?_append]
  cases List.find? (fun p => p.1 == k) m1 <;> simp [overlay, Option.or]

/-- Lookup at the head of an association list. -/
theorem hashFind_cons {V : Type} (p : Nat × V) (ps : List (Nat × V))
    (k : Nat) :
    hashFind (p :: ps) k = if p.1 == k then some p.2 else hashFind ps k := by
  cases h : (p.1 == k) <;> simp [hashFind, List.find?_cons, h]

/-- Absent keys look up to nothing. -/
theorem hashFind_eq_none {V : Type} (m : List (Nat × V)) (k : Nat)
    (h : ∀ p ∈ m, p.1 ≠ k) : hashFind m k = none := by
  have : List.find? (fun p => p.1 == k) m = none :=
    List.find?_eq_none.mpr fun p hp => by simpa using h p hp
  simp [hashFind, this]

/-- On an association list with pairwise-distinct keys, reversal does not
change lookups. -/
theorem hashFind_reverse {V : Type} :
    ∀ (m : List (Nat × V)) (k : Nat), (m.map Prod.fst).Nodup →
      hashFind m.reverse k = hashFind m k := by
  intro m
  induction m with
  | nil => intro k _; rfl
  | cons p ps ih =>
    intro k hnd
    rw [List.map_cons, List.nodup_cons] at hnd
    obtain ⟨hnot, hnd⟩ := hnd
    have hstep : hashFind ((p :: ps).reverse) k =
        overlay (hashFind ps k) (hashFind [p] k) := by
      rw [List.reverse_cons, hashFind_append, ih k hnd]
    have hsing : hashFind [p] k =
        if p.1 == k then some p.2 else none := hashFind_cons p [] k
    have hcons : hashFind (p :: ps) k =
        if p.1 == k then some p.2 else hashFind ps k := hashFind_cons p ps k
    rw [hstep, hsing, hcons]
    by_cases hk : (p.1 == k) = true
    · have hkk : p.1 = k := by simpa using hk
      have hnone : hashFind ps k = none := by
        apply hashFind_eq_none
        intro q hq hqk
        exact hnot (by
          rw [← hkk] at hqk
          exact hqk ▸ List.mem_map_of_mem Prod.fst hq)
      simp only [hnone, if_pos hk, overlay]
    · simp only [if_neg hk]
      cases hps : hashFind ps k with
      | some v => rfl
      | none => rfl

/-- C7: `merge` produces a blueprint whose aspect and event maps are self's
overlaid by other's (other wins on key collision) and whose transition and
observer lists are self's followed by other's in original relative order;
being a pure function of its two arguments, it mutates neither. -/
theorem merge_overlays_and_appends {S : Type}
    (a b : StateMachineBlueprint S)
    (ha : (b.aspects.map Prod.fst).Nodup)
    (he : (b.events.map Prod.fst).Nodup) :
    (∀ k, hashFind (a.merge b).aspects k =
      overlay (hashFind b.aspects k) (hashFind a.aspects k)) ∧
    (∀ k, hashFind (a.merge b).events k =
      overlay (hashFind b.events k) (hashFind a.events k)) ∧
    (a.merge b).transitions = a.transitions ++ b.transitions ∧
    (a.merge b).observers = a.observers ++ b.observers := by
  refine ⟨?_, ?_, rfl, rfl⟩
  · intro k
    show hashFind
      (b.aspects.foldl (fun acc p => hashInsert p.1 p.2 acc) a.aspects) k = _
    rw [foldl_hashInsert, hashFind_append, hashFind_reverse b.aspects k ha]
  · intro k
    show hashFind
      (b.events.foldl (fun acc p => hashInsert p.1 p.2 acc) a.events) k = _
    rw [foldl_hashInsert, hashFind_append, hashFind_reverse b.events k he]

/-- Witness for C7 on concrete blueprints: B's entry wins at the colliding
aspect key 2, A's survives at key 1, B's new key 3 is present, and the
lists concatenate in order. -/
theorem merge_overlays_and_appends_witness :
    (exBlueB.aspects.map Prod.fst).Nodup ∧
    (exBlueB.events.map Prod.fst).Nodup ∧
    hashFind (exBlueA.merge exBlueB).aspects 2 = some exAspectB2 ∧
    hashFind (exBlueA.merge exBlueB).aspects 1 = some exAspectA1 ∧
    hashFind (exBlueA.merge exBlueB).aspects 3 = some exAspectB3 ∧
    (exBlueA.merge exBlueB).transitions = [exTranLow, exTranA] ∧
    (exBlueA.merge exBlueB).observers = [exObserverOut, exObserverIn] := by
  have h := merge_overlays_and_appends exBlueA exBlueB (by decide) (by decide)
  exact ⟨by decide, by decide,
    (h.1 2).trans (by decide), (h.1 1).trans (by decide),
    (h.1 3).trans (by decide), h.2.2.1, h.2.2.2⟩

/-- C8: `partition(a, b, f)` returns `(a AND c, a AND NOT c)` for
`c(s) = b.contains(f.apply(s))`; on every state satisfying `a`, exactly one
of the two returned predicates holds, and the first equals
`b.contains(f.apply(s))`; the combinators build new predicates, so the
operands are not mutated. -/
theorem partition_exactly_one {S : Type} (a b : StateInRange S)
    (f : Transfer S) (s : S) (h : a.contains s = true) :
    (((partition_range_by_transfer_target a b f).1.contains s = true ∧
      (partition_range_by_transfer_target a b f).2.contains s = false) ∨
     ((partition_range_by_transfer_target a b f).1.contains s = false ∧
      (partition_range_by_transfer_target a b f).2.contains s = true)) ∧
    (partition_range_by_transfer_target a b f).1.contains s =
      b.contains (f.apply s) := by
  have h1 : (partition_range_by_transfer_target a b f).1.contains s =
      (a.contains s && b.contains (f.apply s)) := rfl
  have h2 : (partition_range_by_transfer_target a b f).2.contains s =
      (a.contains s && !(b.contains (f.apply s))) := rfl
  rw [h1, h2, h]
  cases hb : b.contains (f.apply s) <;> simp

/-- Witness for C8: at state 0, with `a` everywhere true, `b` the region
at 1 and `f` adding one, the first partition holds and the second fails,
matching membership of the transfer target in `b`. -/
theorem partition_exactly_one_witness :
    exRangeAll.contains 0 = true ∧
    (((partition_range_by_transfer_target exRangeAll exRangeOne
        exShift).1.contains 0 = true ∧
      (partition_range_by_transfer_target exRangeAll exRangeOne
        exShift).2.contains 0 = false) ∨
     ((partition_range_by_transfer_target exRangeAll exRangeOne
        exShift).1.contains 0 = false ∧
      (partition_range_by_transfer_target exRangeAll exRangeOne
        exShift).2.contains 0 = true)) ∧
    (partition_range_by_transfer_target exRangeAll exRangeOne
      exShift).1.contains 0 = exRangeOne.contains (exShift.apply 0) :=
  ⟨rfl,
   (partition_exactly_one exRangeAll exRangeOne exShift 0 rfl).1,
   (partition_exactly_one exRangeAll exRangeOne exShift 0 rfl).2⟩

/-- Case analysis of the fallible `transform`: it is a pending-slot-clearing
no-op failure, a successful commit, or a no-op on an empty slot; in every
case other than a successful commit, `current_state` keeps its prior
value. -/
theorem transformE_result {S : Type} (m : RuntimeStateMachineE S) :
    (m.pending_transition = none ∧ m.transformE = (m, true)) ∨
    (∃ next, m.transformE =
      ({ m with pending_transition := none, current_state := next }, true)) ∨
    m.transformE = ({ m with pending_transition := none }, false) := by
  unfold RuntimeStateMachineE.transformE
  split
  · next hp => exact Or.inl ⟨hp, rfl⟩
  · next t hp =>
    split
    · exact Or.inr (Or.inr rfl)
    · next next_state ht =>
      split
      · exact Or.inr (Or.inr rfl)
      · next pairs hc =>
        split
        · exact Or.inr (Or.inl ⟨next_state, rfl⟩)
        · exact Or.inr (Or.inr rfl)

/-- C5 (amended): a fatal closure failure never touches the committed
`current_state`; `event_happen` aborts leaving the whole machine unchanged
(the pending slot is assigned only after all guard reads succeed); but
`transform` clears the pending slot before performing any read, so a
failing apply step leaves the slot empty rather than untouched. -/
theorem fatal_failure_leaves_committed_state {S P : Type}
    (m : RuntimeStateMachineE S) (event_id : Nat) (payload : Option P) :
    ((m.transformE).2 = false →
      (m.transformE).1.current_state = m.current_state ∧
      (m.transformE).1.blueprint = m.blueprint ∧
      (m.transformE).1.pending_transition = none) ∧
    ((m.event_happenE event_id payload).2 = false →
      (m.event_happenE event_id payload).1 = m) := by
  constructor
  · intro hfail
    rcases transformE_result m with ⟨_, he⟩ | ⟨next, he⟩ | he
    · rw [he] at hfail; cases hfail
    · rw [he] at hfail; cases hfail
    · rw [he]; exact ⟨rfl, rfl, rfl⟩
  · intro hfail
    cases hf : filterCandidatesE m.blueprint.transitions event_id
        m.current_state with
    | none => simp [RuntimeStateMachineE.event_happenE, hf]
    | some cands =>
      rw [RuntimeStateMachineE.event_happenE, hf] at hfail
      cases hfail

/-- Witness for C5's amended theorem: on the concrete failing machine both
protocol steps fail; the apply step keeps the committed state, and the
resolve step (whose guard read fails) leaves the machine untouched. -/
theorem fatal_failure_leaves_committed_state_witness :
    (exMachineEFail.transformE).2 = false ∧
    (exMachineEFail.transformE).1.current_state =
      exMachineEFail.current_state ∧
    (exMachineEFail.event_happenE 6 (none : Option Unit)).2 = false ∧
    (exMachineEFail.event_happenE 6 (none : Option Unit)).1 =
      exMachineEFail :=
  ⟨rfl,
   ((fatal_failure_leaves_committed_state exMachineEFail 6
      (none : Option Unit)).1 rfl).1,
   rfl,
   (fatal_failure_leaves_committed_state exMachineEFail 6
      (none : Option Unit)).2 rfl⟩

/-- Counterexample to C5 as stated: on the concrete machine the apply step
fails fatally (the pending transition's transfer fails), yet the pending
slot has been mutated: it was taken (cleared) before the failing read, so
the prior machine state is NOT left untouched. -/
theorem transform_fatal_mutates_pending_cex :
    (exMachineEFail.transformE).2 = false ∧
    (exMachineEFail.transformE).1.pending_transition = none ∧
    exMachineEFail.pending_transition ≠ none := by
  refine ⟨rfl, rfl, ?_⟩
  intro h
  simp [exMachineEFail] at h

/-- With total guards for the event, the fallible candidate filter
succeeds: it reads only event ids and guards. -/
theorem filterCandidatesE_isSome {S : Type} :
    ∀ (l : List (TransitionE S)) (event_id : Nat) (s : S),
      (∀ t ∈ l, t.event_id = event_id → (t.guard s).isSome) →
      (filterCandidatesE l event_id s).isSome := by
  intro l
  induction l with
  | nil => intro event_id s _; rfl
  | cons t ts ih =>
    intro event_id s h
    have hts := ih event_id s fun u hu => h u (List.mem_cons_of_mem t hu)
    unfold filterCandidatesE
    by_cases he : (t.event_id == event_id) = true
    · rw [if_pos he]
      have hg := h t (List.mem_cons_self t ts) (by simpa using he)
      cases hgv : t.guard s with
      | none => rw [hgv] at hg; cases hg
      | some g =>
        cases hf : filterCandidatesE ts event_id s with
        | none => rw [hf] at hts; cases hts
        | some rest => rfl
    · rw [if_neg he]
      exact hts

/-- C10: the resolve step mutates only the pending slot: `current_state`
and the blueprint are unchanged; and in the fallible model a machine whose
guards for the event are total resolves successfully even though every
transfer, observer region, and callback may fail on every input, so none of
them is invoked and no state is committed during resolution. -/
theorem event_happen_frame {S P : Type} (m : RuntimeStateMachine S)
    (event_id : Nat) (payload : Option P) (mE : RuntimeStateMachineE S)
    (hg : ∀ t ∈ mE.blueprint.transitions, t.event_id = event_id →
      (t.guard mE.current_state).isSome) :
    (m.event_happen event_id payload).current_state = m.current_state ∧
    (m.event_happen event_id payload).blueprint = m.blueprint ∧
    (mE.event_happenE event_id payload).2 = true ∧
    (mE.event_happenE event_id payload).1.current_state =
      mE.current_state ∧
    (mE.event_happenE event_id payload).1.blueprint = mE.blueprint := by
  have hf := filterCandidatesE_isSome mE.blueprint.transitions event_id
    mE.current_state hg
  refine ⟨rfl, rfl, ?_, ?_, ?_⟩ <;>
  · cases hfv : filterCandidatesE mE.blueprint.transitions event_id
        mE.current_state with
    | none => rw [hfv] at hf; cases hf
    | some cands => simp [RuntimeStateMachineE.event_happenE, hfv]

/-- Witness for C10: the concrete fallible machine has a total guard for
event 5 while its transfer, observer region and every callback fail on all
inputs; resolution still succeeds and commits nothing. -/
theorem event_happen_frame_witness :
    (∀ t ∈ exMachineE.blueprint.transitions, t.event_id = 5 →
      (t.guard exMachineE.current_state).isSome) ∧
    (exMachineC1.event_happen 5 (none : Option Unit)).current_state =
      exMachineC1.current_state ∧
    (exMachineE.event_happenE 5 (none : Option Unit)).2 = true ∧
    (exMachineE.event_happenE 5 (none : Option Unit)).1.current_state =
      exMachineE.current_state := by
  have h := event_happen_frame exMachineC1 5 (none : Option Unit) exMachineE
    (by decide)
  exact ⟨by decide, h.1, h.2.2.1, h.2.2.2.1⟩

end StateZen
